import Mathlib

/-!
Shallow embedding of `fc.go` from the msp-tool repository.

The `FC` structure mirrors the mutable fields of the Go `FC` struct
(plus the one option, `EnableDebugTrace`, that the frame handlers read).
Go byte strings are embedded as `List Nat` of byte values, identifiers and
masks as `Nat` (all bit operations here stay within their 16/32-bit width,
so no reduction modulo the width is needed). Fallible Go operations that
panic (out-of-range indexing and slicing) are embedded as
`Except String`, with the error standing for the panic. Outgoing device
commands issued through the external MSP codec are collected in a
`List FCCmd`; printed lines are collected as `FCOutput` values carrying
the data that is formatted.
-/

/-- Modelled from the spec: the protocol-control (MSP) serial function
bit. The numeric value lives in `msp.go`, which is not under `src/`;
the spec only requires it to be one fixed 16-bit flag distinct from the
debug-trace flag. -/
def serialFunctionMSP : Nat := 1

/-- Modelled from the spec: the debug-trace serial function bit, a fixed
16-bit flag distinct from the protocol-control flag (value from the
repository file `msp.go`, not under `src/`). -/
def serialFunctionDebugTrace : Nat := 32768

/-- Modelled from the spec: the debug-trace capability bit of the 32-bit
feature mask (value from the repository file `msp.go`, not under
`src/`). -/
def mspFCFeatureDebugTrace : Nat := 2147483648

/-- One serial port configuration entry, as decoded by the external
codec: `MSPSerialConfig` with its identifier and 16-bit function mask
(the two fields of the data model the handlers read and write). -/
structure MSPSerialConfig where
  identifier : Nat
  functionMask : Nat
deriving DecidableEq

/-- The session state of `FC` (fc.go lines 25-35): the accumulated
identity and configuration fields, plus the `EnableDebugTrace` option
from `FCOptions` that the handlers consult. -/
structure FC where
  enableDebugTrace : Bool
  variant : List Nat
  versionMajor : Nat
  versionMinor : Nat
  versionPatch : Nat
  boardID : List Nat
  targetName : List Nat
  features : Nat
deriving DecidableEq

/-- Outgoing commands written to the device through the codec
(`f.msp.WriteCmd` calls in fc.go). -/
inductive FCCmd where
  | apiVersionReq
  | fcVariantReq
  | fcVersionReq
  | boardInfoReq
  | buildInfoReq
  | featureReq
  | cfSerialConfigReq
  | setFeature (mask : Nat)
  | setCFSerialConfig (cfgs : List MSPSerialConfig)
  | eepromWrite
  | rebootCmd
deriving DecidableEq

/-- Lines printed by the handlers, carrying the data that is formatted. -/
inductive FCOutput where
  | apiVersionLine (b1 b2 b0 : Nat)
  | summary (variant : List Nat) (ma mi pa : Nat) (boardID targetName : List Nat)
  | buildLine (rev date time : List Nat)
  | enablingFeatureLine
  | enablingSerialLine (identifier : Nat)
  | rebootLine
  | debugLine (s : List Nat)
  | unhandledLine (code : Nat) (payload : List Nat)
deriving DecidableEq

/-- A decoded incoming frame. The raw-payload cases carry the byte
payload; the feature and serial-config cases carry the values the
external typed reader (`fr.Read`) decodes for the handler. -/
inductive MSPFrame where
  | apiVersion (payload : List Nat)
  | fcVariant (payload : List Nat)
  | fcVersion (payload : List Nat)
  | boardInfo (payload : List Nat)
  | buildInfo (payload : List Nat)
  | feature (mask : Nat)
  | cfSerialConfig (cfgs : List MSPSerialConfig)
  | reboot
  | debugMsg (payload : List Nat)
  | setFeatureAck
  | setCFSerialConfigAck
  | eepromWriteAck
  | other (code : Nat) (payload : List Nat)
deriving DecidableEq

/-- Go byte indexing `fr.Payload[n]` (used through `fr.Byte`): panics
when the index is out of range. -/
def frByte (p : List Nat) (n : Nat) : Except String Nat :=
  match p.get? n with
  | some b => Except.ok b
  | none => Except.error "index out of range"

/-- Go slicing `p[:j]`: panics when `j` exceeds the length. -/
def goSliceTo (p : List Nat) (j : Nat) : Except String (List Nat) :=
  if j ≤ p.length then Except.ok (p.take j)
  else Except.error "slice bounds out of range"

/-- Go slicing `p[i:j]`: panics unless `i ≤ j ≤ len(p)`. -/
def goSliceRange (p : List Nat) (i j : Nat) : Except String (List Nat) :=
  if i ≤ j ∧ j ≤ p.length then Except.ok ((p.drop i).take (j - i))
  else Except.error "slice bounds out of range"

/-- `FC.versionGte` (fc.go lines 198-201). -/
def FC.versionGte (f : FC) (ma mi pa : Nat) : Bool :=
  decide (ma < f.versionMajor) ||
    (f.versionMajor == ma && decide (mi < f.versionMinor)) ||
    (f.versionMajor == ma && f.versionMinor == mi && decide (pa ≤ f.versionPatch))

/-- The byte string of the Go literal "INAV". -/
def inavTag : List Nat := [73, 78, 65, 86]

/-- `FC.shouldEnableDebugTrace` (fc.go lines 203-206). -/
def FC.shouldEnableDebugTrace (f : FC) : Bool :=
  f.enableDebugTrace && f.variant == inavTag && f.versionGte 1 9 0

/-- `FC.printInfo` (fc.go lines 99-107): returns the summary line it
prints, or nothing when the guard fails. -/
def FC.printInfo (f : FC) : List FCOutput :=
  if f.variant ≠ [] ∧ f.versionMajor ≠ 0 ∧ f.boardID ≠ [] then
    [FCOutput.summary f.variant f.versionMajor f.versionMinor f.versionPatch
      f.boardID f.targetName]
  else []

/-- The in-place patch loop of the `mspCFSerialConfig` case
(fc.go lines 172-178): set the debug-trace bit on the first entry whose
mask carries the MSP bit, leaving everything else untouched. -/
def patchFirstMSP : List MSPSerialConfig → List MSPSerialConfig
  | [] => []
  | c :: rest =>
    if c.functionMask &&& serialFunctionMSP ≠ 0 then
      { c with functionMask := c.functionMask ||| serialFunctionDebugTrace } :: rest
    else
      c :: patchFirstMSP rest

/-- The entry the patch loop of fc.go lines 172-178 announces (the first
one carrying the MSP bit), if any. -/
def firstMSP : List MSPSerialConfig → Option MSPSerialConfig
  | [] => none
  | c :: rest =>
    if c.functionMask &&& serialFunctionMSP ≠ 0 then some c
    else firstMSP rest

/-- The cut set of `strings.Trim(string(fr.Payload), " \r\n\t\x00")` in
the `mspDebugMsg` case, on byte values. -/
def isTrimByte (b : Nat) : Bool :=
  b == 32 || b == 13 || b == 10 || b == 9 || b == 0

/-- Trim the cut set from both ends of a byte string. -/
def trimBytes (p : List Nat) : List Nat :=
  ((p.dropWhile isTrimByte).reverse.dropWhile isTrimByte).reverse

/-- `FC.handleFrame` (fc.go lines 109-196). Returns the updated state,
the printed lines and the outgoing commands, or an error standing for a
Go panic on out-of-range payload indexing. -/
def FC.handleFrame (f : FC) (fr : MSPFrame) :
    Except String (FC × List FCOutput × List FCCmd) :=
  match fr with
  | .apiVersion p =>
    match frByte p 1 with
    | .error e => .error e
    | .ok b1 =>
      match frByte p 2 with
      | .error e => .error e
      | .ok b2 =>
        match frByte p 0 with
        | .error e => .error e
        | .ok b0 => .ok (f, [FCOutput.apiVersionLine b1 b2 b0], [])
  | .fcVariant p =>
    let f1 := { f with variant := p }
    .ok (f1, f1.printInfo, [])
  | .fcVersion p =>
    match frByte p 0 with
    | .error e => .error e
    | .ok b0 =>
      match frByte p 1 with
      | .error e => .error e
      | .ok b1 =>
        match frByte p 2 with
        | .error e => .error e
        | .ok b2 =>
          let f1 := { f with versionMajor := b0, versionMinor := b1, versionPatch := b2 }
          .ok (f1, f1.printInfo, [])
  | .boardInfo p =>
    match goSliceTo p 4 with
    | .error e => .error e
    | .ok bid =>
      let f1 := { f with boardID := bid }
      let f2 :=
        if 9 ≤ p.length then
          let n := p.getD 8 0
          if 8 + n < p.length then
            { f1 with targetName := (p.drop 9).take n }
          else f1
        else f1
      .ok (f2, f2.printInfo, [])
  | .buildInfo p =>
    match goSliceRange p 0 11 with
    | .error e => .error e
    | .ok date =>
      match goSliceRange p 11 19 with
      | .error e => .error e
      | .ok time =>
        .ok (f, [FCOutput.buildLine (p.drop 19) date time], [])
  | .feature mask =>
    let f1 := { f with features := mask }
    if (f1.features &&& mspFCFeatureDebugTrace == 0) && f1.shouldEnableDebugTrace then
      let f2 := { f1 with features := f1.features ||| mspFCFeatureDebugTrace }
      .ok (f2, [FCOutput.enablingFeatureLine],
        [FCCmd.setFeature f2.features, FCCmd.eepromWrite])
    else
      .ok (f1, [], [])
  | .cfSerialConfig cfgs =>
    if f.shouldEnableDebugTrace then
      let mask := serialFunctionMSP ||| serialFunctionDebugTrace
      if cfgs.any (fun c => c.functionMask &&& mask == mask) then
        .ok (f, [], [])
      else
        let outs :=
          match firstMSP cfgs with
          | some c => [FCOutput.enablingSerialLine c.identifier]
          | none => []
        .ok (f, outs, [FCCmd.setCFSerialConfig (patchFirstMSP cfgs), FCCmd.eepromWrite])
    else
      .ok (f, [], [])
  | .reboot => .ok (f, [FCOutput.rebootLine], [])
  | .debugMsg p => .ok (f, [FCOutput.debugLine (trimBytes p)], [])
  | .setFeatureAck => .ok (f, [], [])
  | .setCFSerialConfigAck => .ok (f, [], [])
  | .eepromWriteAck => .ok (f, [], [])
  | .other code p => .ok (f, [FCOutput.unhandledLine code p], [])

/-- The state reached by handling a frame, when the handler does not
panic. -/
def FC.afterFrame (f : FC) (fr : MSPFrame) : Option FC :=
  match f.handleFrame fr with
  | .ok (st, _, _) => some st
  | .error _ => none

/-- `FC.reset` (fc.go lines 390-398). -/
def FC.reset (f : FC) : FC :=
  { f with variant := [], versionMajor := 0, versionMinor := 0, versionPatch := 0,
           boardID := [], targetName := [], features := 0 }

/-- The fixed info-request set sent by `FC.updateInfo`
(fc.go lines 84-93), in order. -/
def updateInfoCmds : List FCCmd :=
  [FCCmd.apiVersionReq, FCCmd.fcVariantReq, FCCmd.fcVersionReq, FCCmd.boardInfoReq,
   FCCmd.buildInfoReq, FCCmd.featureReq, FCCmd.cfSerialConfigReq]

/-- The effect of a successful reconnect (`FC.reconnect`,
fc.go lines 66-82): once the transport opens again, the state is reset
and `updateInfo` resends the info-request set. -/
def FC.reconnectEffect (f : FC) : FC × List FCCmd :=
  (f.reset, updateInfoCmds)

/-! ## DFU listing and waiting (fc.go lines 318-351) -/

/-- The literal `dfuDevicePrefix` constant of fc.go line 18. -/
def dfuDeviceMarker : String := "Found DFU: "

/-- The literal `internalFlashMarker` constant of fc.go line 19. -/
def internalFlashMarker : String := "@Internal Flash  /"

/-- `strings.Contains` on character lists: does the second list occur as
a contiguous run of the first? -/
def listContains (sub : List Char) : List Char → Bool
  | [] => decide (sub = [])
  | c :: rest =>
    decide ((c :: rest).take sub.length = sub) || listContains sub rest

/-- `strings.Contains(s, sub)`. -/
def strContains (s sub : String) : Bool :=
  listContains sub.data s.data

/-- The cut set of `strings.Trim(ll, "\n\r\t ")` in `FC.dfuList`. -/
def isLineTrimChar (c : Char) : Bool :=
  c == '\n' || c == '\r' || c == '\t' || c == ' '

/-- Trim the `FC.dfuList` cut set from both ends of a line. -/
def trimLine (l : List Char) : List Char :=
  ((l.dropWhile isLineTrimChar).reverse.dropWhile isLineTrimChar).reverse

/-- `strings.Split(s, "\n")` on character lists. -/
def splitLines : List Char → List (List Char)
  | [] => [[]]
  | c :: rest =>
    if c = '\n' then [] :: splitLines rest
    else
      match splitLines rest with
      | [] => [[c]]
      | l :: ls => (c :: l) :: ls

/-- The line processing of `FC.dfuList` (fc.go lines 323-331): split the
captured output into lines, trim each, keep the ones starting with the
device marker, stripped of that marker. -/
def dfuListLines (output : String) : List String :=
  (splitLines output.data).filterMap (fun ll =>
    let t := trimLine ll
    if t.take dfuDeviceMarker.data.length = dfuDeviceMarker.data then
      some (String.mk (t.drop dfuDeviceMarker.data.length))
    else none)

/-- One invocation of the external device-lister tool: whether the
process ran and exited successfully, and the output it wrote to the
captured standard output. -/
structure ToolRun where
  exitOk : Bool
  output : String
deriving DecidableEq

/-- `FC.dfuList` (fc.go lines 318-332). The result of `cmd.Run()` is
discarded by the source, so the returned error is always nil and the
lines are computed from whatever output was captured, even when the
invocation failed. -/
def FC.dfuList (run : ToolRun) : Except String (List String) :=
  Except.ok (dfuListLines run.output)

/-- `FC.dfuWait` (fc.go lines 334-351). The 30-second deadline is
embedded as the finite list of poll results observable before the
deadline passes: an exhausted list is the timeout. The dead
error branch mirrors the `if err != nil` check of the source. -/
def FC.dfuWait : List ToolRun → Except String Unit
  | [] => Except.error "timed out while waiting for board in DFU mode"
  | run :: rest =>
    match FC.dfuList run with
    | .error e => .error e
    | .ok devices =>
      if devices.any (fun d => strContains d internalFlashMarker) then Except.ok ()
      else FC.dfuWait rest

/-! ## Descriptor parsing (fc.go lines 353-388)

`FC.regexpFind` applies one of three fixed patterns. Each pattern is
embedded as a direct scanner with the same semantics as the Go regexp
engine on that pattern: try every start position from the left, and at
the first position where the whole pattern matches, return the first
capture group. -/

/-- The maximal leading digit run (the greedy capture of a digit class
repetition). -/
def digitsRun : List Char → List Char
  | [] => []
  | c :: rest => if c.isDigit then c :: digitsRun rest else []

/-- The literal part of the pattern for the alt setting. -/
def altKey : List Char := ("alt=").data

/-- The capture of the Go pattern for the alt setting: at each start
position, match the literal key followed by at least one digit, and
capture the maximal digit run. -/
def findAlt : List Char → List Char
  | [] => []
  | c :: rest =>
    let d := digitsRun ((c :: rest).drop altKey.length)
    if (c :: rest).take altKey.length = altKey ∧ d ≠ [] then d
    else findAlt rest

/-- The characters before the first double quote (the lazy capture of an
any-character repetition followed by a quote); fails when no quote
follows on the same line. -/
def upToQuote : List Char → Option (List Char)
  | [] => none
  | c :: rest =>
    if c = '\"' then some []
    else if c = '\n' then none
    else (upToQuote rest).map (fun l => c :: l)

/-- The literal part of the pattern for the serial number. -/
def serialKey : List Char := ("serial=\"").data

/-- The capture of the Go pattern for the serial number: at each start
position, match the literal key and capture lazily up to the next
double quote. -/
def findSerial : List Char → List Char
  | [] => []
  | c :: rest =>
    if (c :: rest).take serialKey.length = serialKey then
      match upToQuote ((c :: rest).drop serialKey.length) with
      | some cap => cap
      | none => findSerial rest
    else findSerial rest

/-- The run of characters from the offset character class (digits and
the letter x) up to the first slash (the lazy capture of the class
repetition followed by a slash); fails when another character appears
before a slash. -/
def classRunToSlash : List Char → Option (List Char)
  | [] => none
  | c :: rest =>
    if c = '/' then some []
    else if c.isDigit || c == 'x' then (classRunToSlash rest).map (fun l => c :: l)
    else none

/-- The literal part of the pattern for the flash offset. -/
def offsetKey : List Char := ("Internal Flash  /").data

/-- The capture of the Go pattern for the flash offset: at each start
position, match the literal key and capture the class run up to the
next slash. -/
def findOffset : List Char → List Char
  | [] => []
  | c :: rest =>
    if (c :: rest).take offsetKey.length = offsetKey then
      match classRunToSlash ((c :: rest).drop offsetKey.length) with
      | some cap => cap
      | none => findOffset rest
    else findOffset rest

/-- The device-selection loop of `FC.dfuFlash` (fc.go lines 367-373):
the first listed device line containing the internal-flash marker, or
the empty string when there is none. -/
def firstFlashDevice (devices : List String) : String :=
  match devices.find? (fun d => strContains d internalFlashMarker) with
  | some d => d
  | none => ""

/-- The Go `%q` quoting of a character, for the characters that occur in
descriptor lines (backslash, double quote and the common control
characters are escaped; other printable characters stand for
themselves). -/
def goQuoteChar (c : Char) : List Char :=
  if c = '\\' then ['\\', '\\']
  else if c = '\"' then ['\\', '\"']
  else if c = '\n' then ['\\', 'n']
  else if c = '\r' then ['\\', 'r']
  else if c = '\t' then ['\\', 't']
  else [c]

/-- The Go `%q` quoting of a string. -/
def goQuote (s : String) : String :=
  String.mk ('\"' :: s.data.foldr (fun c acc => goQuoteChar c ++ acc) ['\"'])

/-- The parameter-extraction step of `FC.dfuFlash` (fc.go lines
362-382): pick the internal-flash device line, extract the alt setting,
serial number and flash offset, and fail naming the unparsed line when
any of the three is empty. -/
def dfuFlashParams (devices : List String) : Except String (String × String × String) :=
  let device := firstFlashDevice devices
  let alt := String.mk (findAlt device.data)
  let serial := String.mk (findSerial device.data)
  let offset := String.mk (findOffset device.data)
  if alt = "" ∨ serial = "" ∨ offset = "" then
    Except.error ("could not determine flash parameters from " ++ goQuote device)
  else
    Except.ok (alt, serial, offset)

/-! ## Binary location (fc.go lines 273-298) -/

/-- The name and modification time of one file in the output
directory (the two `os.FileInfo` observations the selection loop
makes). -/
structure FileInfo where
  name : String
  modTime : Nat
deriving DecidableEq

/-- Helper for `filepath.Ext`: scan the reversed name, accumulating the
extension, stopping at a path separator. -/
def extFromRev : List Char → List Char → List Char
  | [], _ => []
  | c :: rest, acc =>
    if c = '/' then []
    else if c = '.' then c :: acc
    else extFromRev rest (c :: acc)

/-- `filepath.Ext(name)`: the suffix of the name beginning at the final
dot, or empty when there is none. -/
def filepathExt (name : String) : List Char :=
  extFromRev name.data.reverse []

/-- `strings.HasSuffix` on character lists. -/
def hasSuffixChars (l suf : List Char) : Bool :=
  decide (suf.length ≤ l.length) && decide (l.drop (l.length - suf.length) = suf)

/-- The candidate test of the selection loop (fc.go lines 282-292): the
extension is ".bin" and the name stripped of its last four characters
ends with the target name. -/
def isCandidate (name target : String) : Bool :=
  decide (filepathExt name = (".bin").data) &&
    hasSuffixChars (name.data.take (name.data.length - 4)) target.data

/-- One step of the selection loop: keep the current best unless the
file is a candidate that is strictly more recently modified (or the
first candidate seen). -/
def selStep (target : String) (best : Option FileInfo) (fi : FileInfo) : Option FileInfo :=
  if isCandidate fi.name target then
    match best with
    | none => some fi
    | some b => if b.modTime < fi.modTime then some fi else some b
  else best

/-- The whole selection loop over the listed files. -/
def selectBinary (files : List FileInfo) (target : String) : Option FileInfo :=
  files.foldl (selStep target) none

/-- The binary-location step of `FC.Flash` (fc.go lines 273-298):
the name of the selected binary, or the error reported when no file
matches. -/
def locateBinary (files : List FileInfo) (target : String) : Except String String :=
  match selectBinary files target with
  | some b => Except.ok b.name
  | none => Except.error ("could not find binary for target " ++ target)

/-- The example descriptor line documented at fc.go line 375 (one line
of device-lister output, stripped of the device marker). -/
def dfuExampleLine : String :=
  "[0483:df11] ver=2200, devnum=17, cfg=1, intf=0, path=\"20-1\", alt=0, name=\"@Internal Flash  /0x08000000/04*016Kg,01*064Kg,07*128Kg\", serial=\"3276365D3336\""

/-! ## Helper lemmas -/

theorem selStep_le (target : String) (b : Option FileInfo) (fi y : FileInfo)
    (hb : b = some y) : ∃ z, selStep target b fi = some z ∧ y.modTime ≤ z.modTime := by
  subst hb
  unfold selStep
  by_cases hc : isCandidate fi.name target = true
  · by_cases hlt : y.modTime < fi.modTime
    · exact ⟨fi, by simp [hc, hlt], by omega⟩
    · exact ⟨y, by simp [hc, hlt], le_refl _⟩
  · exact ⟨y, by simp [hc], le_refl _⟩

theorem selStep_cand_le (target : String) (b : Option FileInfo) (fi : FileInfo)
    (hc : isCandidate fi.name target = true) :
    ∃ z, selStep target b fi = some z ∧ fi.modTime ≤ z.modTime := by
  unfold selStep
  cases b with
  | none => exact ⟨fi, by simp [hc], le_refl _⟩
  | some y =>
    by_cases hlt : y.modTime < fi.modTime
    · exact ⟨fi, by simp [hc, hlt], le_refl _⟩
    · exact ⟨y, by simp [hc, hlt], by omega⟩

theorem selStep_provenance (target : String) (b : Option FileInfo) (fi : FileInfo) :
    selStep target b fi = b ∨
      (selStep target b fi = some fi ∧ isCandidate fi.name target = true) := by
  unfold selStep
  by_cases hc : isCandidate fi.name target = true
  · cases b with
    | none => right; exact ⟨by simp [hc], hc⟩
    | some y =>
      by_cases hlt : y.modTime < fi.modTime
      · right; exact ⟨by simp [hc, hlt], hc⟩
      · left; simp [hc, hlt]
  · left; simp [hc]

theorem foldl_selStep_spec (target : String) :
    ∀ (files : List FileInfo) (b : Option FileInfo) (x : FileInfo),
      List.foldl (selStep target) b files = some x →
      (b = some x ∨ (x ∈ files ∧ isCandidate x.name target = true)) ∧
      (∀ g ∈ files, isCandidate g.name target = true → g.modTime ≤ x.modTime) ∧
      (∀ y, b = some y → y.modTime ≤ x.modTime) := by
  intro files
  induction files with
  | nil =>
    intro b x h
    simp only [List.foldl_nil] at h
    exact ⟨Or.inl h, by simp, fun y hy => by rw [hy] at h; cases h; exact le_refl _⟩
  | cons fhead rest ih =>
    intro b x h
    simp only [List.foldl_cons] at h
    obtain ⟨h1, h2, h3⟩ := ih (selStep target b fhead) x h
    refine ⟨?_, ?_, ?_⟩
    · rcases h1 with h1 | h1
      · rcases selStep_provenance target b fhead with hp | ⟨hp, hcand⟩
        · exact Or.inl (hp ▸ h1)
        · rw [h1] at hp
          cases hp
          exact Or.inr ⟨List.mem_cons_self _ _, hcand⟩
      · exact Or.inr ⟨List.mem_cons_of_mem _ h1.1, h1.2⟩
    · intro g hg hcand
      rcases List.mem_cons.mp hg with rfl | hg
      · obtain ⟨z, hz, hle⟩ := selStep_cand_le target b g hcand
        exact le_trans hle (h3 z hz)
      · exact h2 g hg hcand
    · intro y hy
      obtain ⟨z, hz, hle⟩ := selStep_le target b fhead y hy
      exact le_trans hle (h3 z hz)

theorem foldl_selStep_none (target : String) :
    ∀ files : List FileInfo, (∀ fi ∈ files, isCandidate fi.name target = false) →
      List.foldl (selStep target) none files = none := by
  intro files
  induction files with
  | nil => intro _; rfl
  | cons fhead rest ih =>
    intro h
    have hc := h fhead (List.mem_cons_self _ _)
    have hstep : selStep target none fhead = none := by
      unfold selStep; simp [hc]
    simp only [List.foldl_cons, hstep]
    exact ih (fun fi hfi => h fi (List.mem_cons_of_mem _ hfi))

theorem testBit_false_of_land_zero (m b i : Nat) (hb : Nat.testBit b i = true)
    (h : m &&& b = 0) : Nat.testBit m i = false := by
  have h2 := congrArg (fun x => Nat.testBit x i) h
  simpa [Nat.testBit_land, hb] using h2

theorem land_ne_of_testBit_false (m mask i : Nat) (hm : Nat.testBit m i = false)
    (hmask : Nat.testBit mask i = true) : ¬m &&& mask = mask := by
  intro heq
  have h2 := congrArg (fun x => Nat.testBit x i) heq
  simp [Nat.testBit_land, hm, hmask] at h2

/-- An entry without the MSP bit can never pass the combined-mask test
of the serial-config handler. -/
theorem not_both_of_no_msp (m : Nat) (h : m &&& serialFunctionMSP = 0) :
    ¬m &&& (serialFunctionMSP ||| serialFunctionDebugTrace) =
      serialFunctionMSP ||| serialFunctionDebugTrace :=
  land_ne_of_testBit_false m _ 0
    (testBit_false_of_land_zero m serialFunctionMSP 0 (by decide) h) (by decide)

/-- An entry without the debug-trace bit can never pass the
combined-mask test of the serial-config handler. -/
theorem not_both_of_no_dt (m : Nat) (h : m &&& serialFunctionDebugTrace = 0) :
    ¬m &&& (serialFunctionMSP ||| serialFunctionDebugTrace) =
      serialFunctionMSP ||| serialFunctionDebugTrace :=
  land_ne_of_testBit_false m _ 15
    (testBit_false_of_land_zero m serialFunctionDebugTrace 15 (by decide) h) (by decide)

theorem patchFirstMSP_no_msp (cfgs : List MSPSerialConfig)
    (h : ∀ c ∈ cfgs, c.functionMask &&& serialFunctionMSP = 0) :
    patchFirstMSP cfgs = cfgs := by
  induction cfgs with
  | nil => rfl
  | cons c rest ih =>
    have hc := h c (List.mem_cons_self c rest)
    simp [patchFirstMSP, hc, ih (fun e he => h e (List.mem_cons_of_mem c he))]

theorem firstMSP_no_msp (cfgs : List MSPSerialConfig)
    (h : ∀ c ∈ cfgs, c.functionMask &&& serialFunctionMSP = 0) :
    firstMSP cfgs = none := by
  induction cfgs with
  | nil => rfl
  | cons c rest ih =>
    have hc := h c (List.mem_cons_self c rest)
    simp [firstMSP, hc, ih (fun e he => h e (List.mem_cons_of_mem c he))]

theorem patchFirstMSP_append (pre : List MSPSerialConfig) (c : MSPSerialConfig)
    (post : List MSPSerialConfig)
    (hpre : ∀ e ∈ pre, e.functionMask &&& serialFunctionMSP = 0)
    (hc : c.functionMask &&& serialFunctionMSP ≠ 0) :
    patchFirstMSP (pre ++ c :: post) =
      pre ++ { c with functionMask := c.functionMask ||| serialFunctionDebugTrace } :: post := by
  induction pre with
  | nil => simp [patchFirstMSP, hc]
  | cons e pre ih =>
    have he := hpre e (List.mem_cons_self e pre)
    simp [patchFirstMSP, he, ih (fun x hx => hpre x (List.mem_cons_of_mem e hx))]

theorem firstMSP_append (pre : List MSPSerialConfig) (c : MSPSerialConfig)
    (post : List MSPSerialConfig)
    (hpre : ∀ e ∈ pre, e.functionMask &&& serialFunctionMSP = 0)
    (hc : c.functionMask &&& serialFunctionMSP ≠ 0) :
    firstMSP (pre ++ c :: post) = some c := by
  induction pre with
  | nil => simp [firstMSP, hc]
  | cons e pre ih =>
    have he := hpre e (List.mem_cons_self e pre)
    simp [firstMSP, he, ih (fun x hx => hpre x (List.mem_cons_of_mem e hx))]

/-! ## Claims -/

/-- C1, counterexample: with policy allowing enablement, a
serial-config frame whose single entry carries no function bits at all
(so no protocol-control bit anywhere) still makes the handler issue a
set-serial-config command plus a persist command, contradicting the
claim that no outgoing commands are issued. -/
theorem c1_counterexample :
    FC.handleFrame
        { enableDebugTrace := true, variant := [73, 78, 65, 86], versionMajor := 2,
          versionMinor := 0, versionPatch := 0, boardID := [], targetName := [],
          features := 0 }
        (MSPFrame.cfSerialConfig [{ identifier := 0, functionMask := 0 }]) =
      Except.ok
        ({ enableDebugTrace := true, variant := [73, 78, 65, 86], versionMajor := 2,
           versionMinor := 0, versionPatch := 0, boardID := [], targetName := [],
           features := 0 }, [],
         [FCCmd.setCFSerialConfig [{ identifier := 0, functionMask := 0 }],
          FCCmd.eepromWrite]) ∧
    [FCCmd.setCFSerialConfig [{ identifier := 0, functionMask := 0 }],
     FCCmd.eepromWrite] ≠ ([] : List FCCmd) :=
  ⟨rfl, by decide⟩

/-- C1 (amended): for a serial-config frame in which no entry carries
the protocol-control bit, with policy allowing enablement, no entry is
modified and the state is unchanged, but the handler still issues a
set-serial-config command carrying the unchanged entry sequence
followed by a persist command. -/
theorem c1_no_msp_port_sends_unchanged_config (f : FC) (cfgs : List MSPSerialConfig)
    (hse : f.shouldEnableDebugTrace = true)
    (h : ∀ c ∈ cfgs, c.functionMask &&& serialFunctionMSP = 0) :
    f.handleFrame (MSPFrame.cfSerialConfig cfgs) =
      Except.ok (f, [], [FCCmd.setCFSerialConfig cfgs, FCCmd.eepromWrite]) := by
  have hany : (cfgs.any (fun c =>
      c.functionMask &&& (serialFunctionMSP ||| serialFunctionDebugTrace) ==
        serialFunctionMSP ||| serialFunctionDebugTrace)) = false := by
    refine List.any_eq_false.mpr (fun c hc => ?_)
    simpa using not_both_of_no_msp c.functionMask (h c hc)
  simp [FC.handleFrame, hse, hany, patchFirstMSP_no_msp cfgs h, firstMSP_no_msp cfgs h]

/-- C1 witness. -/
theorem c1_no_msp_port_sends_unchanged_config_witness :
    FC.handleFrame
        { enableDebugTrace := true, variant := [73, 78, 65, 86], versionMajor := 1,
          versionMinor := 9, versionPatch := 1, boardID := [], targetName := [],
          features := 0 }
        (MSPFrame.cfSerialConfig [{ identifier := 3, functionMask := 0 }]) =
      Except.ok
        ({ enableDebugTrace := true, variant := [73, 78, 65, 86], versionMajor := 1,
           versionMinor := 9, versionPatch := 1, boardID := [], targetName := [],
           features := 0 }, [],
         [FCCmd.setCFSerialConfig [{ identifier := 3, functionMask := 0 }],
          FCCmd.eepromWrite]) :=
  c1_no_msp_port_sends_unchanged_config _ _ (by decide) (by decide)

/-- C2: a successful reconnect resets every accumulated session field
(variant, version triple, board identifier, target name, feature mask;
no serial-port configuration is stored between frames) while keeping the
options, and emits the fixed seven info-request commands, each exactly
once. -/
theorem c2_reconnect_resets_and_requests_info (f : FC) :
    f.reconnectEffect =
      ({ enableDebugTrace := f.enableDebugTrace, variant := [], versionMajor := 0,
         versionMinor := 0, versionPatch := 0, boardID := [], targetName := [],
         features := 0 }, updateInfoCmds) ∧
    updateInfoCmds.count FCCmd.apiVersionReq = 1 ∧
    updateInfoCmds.count FCCmd.fcVariantReq = 1 ∧
    updateInfoCmds.count FCCmd.fcVersionReq = 1 ∧
    updateInfoCmds.count FCCmd.boardInfoReq = 1 ∧
    updateInfoCmds.count FCCmd.buildInfoReq = 1 ∧
    updateInfoCmds.count FCCmd.featureReq = 1 ∧
    updateInfoCmds.count FCCmd.cfSerialConfigReq = 1 ∧
    updateInfoCmds.length = 7 :=
  ⟨rfl, by decide, by decide, by decide, by decide, by decide, by decide, by decide,
   by decide⟩

/-- C3, counterexample: starting from the reset state with policy not
allowing enablement, a feature frame carrying the debug-trace bit sets
the bit in the stored mask, and a following feature frame with an empty
mask clears it again, contradicting the claim that the bit is never
cleared once set. -/
theorem c3_counterexample :
    FC.afterFrame
        { enableDebugTrace := false, variant := [], versionMajor := 0,
          versionMinor := 0, versionPatch := 0, boardID := [], targetName := [],
          features := 0 }
        (MSPFrame.feature mspFCFeatureDebugTrace) =
      some
        { enableDebugTrace := false, variant := [], versionMajor := 0,
          versionMinor := 0, versionPatch := 0, boardID := [], targetName := [],
          features := mspFCFeatureDebugTrace } ∧
    FC.afterFrame
        { enableDebugTrace := false, variant := [], versionMajor := 0,
          versionMinor := 0, versionPatch := 0, boardID := [], targetName := [],
          features := mspFCFeatureDebugTrace }
        (MSPFrame.feature 0) =
      some
        { enableDebugTrace := false, variant := [], versionMajor := 0,
          versionMinor := 0, versionPatch := 0, boardID := [], targetName := [],
          features := 0 } ∧
    mspFCFeatureDebugTrace &&& mspFCFeatureDebugTrace ≠ 0 ∧
    (0 : Nat) &&& mspFCFeatureDebugTrace = 0 := by
  refine ⟨rfl, rfl, by decide, by decide⟩

/-- C3 (amended): handling a feature frame first overwrites the stored
mask with the mask carried by the frame, so a frame without the
debug-trace bit can clear a previously set bit when policy does not
re-enable it; the patcher itself never issues a clearing command: the
only command pair it can issue carries the frame mask with the
debug-trace bit set, and a frame whose mask already has the bit
produces no outgoing commands and no other state change. -/
theorem c3_feature_bit_behavior (f : FC) (mask : Nat) :
    (mask &&& mspFCFeatureDebugTrace ≠ 0 →
      f.handleFrame (MSPFrame.feature mask) =
        Except.ok ({ f with features := mask }, [], [])) ∧
    (∀ st outs cmds, f.handleFrame (MSPFrame.feature mask) = Except.ok (st, outs, cmds) →
      cmds = [] ∨
        cmds = [FCCmd.setFeature (mask ||| mspFCFeatureDebugTrace), FCCmd.eepromWrite]) := by
  constructor
  · intro hbit
    have : (mask &&& mspFCFeatureDebugTrace == 0) = false := by
      simpa using hbit
    simp [FC.handleFrame, this]
  · intro st outs cmds h
    by_cases hcond : ((mask &&& mspFCFeatureDebugTrace == 0) &&
        FC.shouldEnableDebugTrace { f with features := mask }) = true
    · right
      simp [FC.handleFrame, hcond] at h
      exact h.2.2.symm
    · left
      simp [FC.handleFrame, hcond] at h
      exact h.2.2

/-- C4: board-info target-name parsing. A payload of exactly 4 bytes
leaves the target name unset; a payload of length 9+N whose byte 8 is N
followed by exactly N bytes sets the target name to those N bytes; a
payload one byte short of that leaves the target name unset. -/
theorem c4_board_info_target_name (f : FC) :
    (∀ p : List Nat, p.length = 4 → f.targetName = [] →
      (f.afterFrame (MSPFrame.boardInfo p)).map FC.targetName = some []) ∧
    (∀ pre name : List Nat, pre.length = 8 →
      (f.afterFrame (MSPFrame.boardInfo (pre ++ name.length :: name))).map FC.targetName =
        some name) ∧
    (∀ (pre name : List Nat) (n : Nat), pre.length = 8 → name.length + 1 = n →
      f.targetName = [] →
      (f.afterFrame (MSPFrame.boardInfo (pre ++ n :: name))).map FC.targetName =
        some []) := by
  refine ⟨?_, ?_, ?_⟩
  · intro p hp ht
    have h4 : goSliceTo p 4 = Except.ok (p.take 4) := by
      unfold goSliceTo; rw [if_pos (by omega)]
    simp [FC.afterFrame, FC.handleFrame, h4, hp, ht]
  · intro pre name hlen
    have hlp : (pre ++ name.length :: name).length = 9 + name.length := by
      simp [hlen]; omega
    have h4 : goSliceTo (pre ++ name.length :: name) 4 =
        Except.ok ((pre ++ name.length :: name).take 4) := by
      unfold goSliceTo; rw [if_pos (by omega)]
    have hg : (pre ++ name.length :: name).getD 8 0 = name.length := by
      rw [List.getD, List.get?_append_right (by omega), hlen]
      simp
    have hdrop : (pre ++ name.length :: name).drop 9 = name := by
      have heq : pre ++ name.length :: name = (pre ++ [name.length]) ++ name := by simp
      have hl9 : (pre ++ [name.length]).length = 9 := by simp [hlen]
      rw [heq, ← hl9, List.drop_left]
    simp only [FC.afterFrame, FC.handleFrame, h4]
    rw [if_pos (by omega), hg, if_pos (by omega), hdrop, List.take_length]
    rfl
  · intro pre name n hlen hn ht
    have hlp : (pre ++ n :: name).length = 8 + n := by
      simp [hlen]; omega
    have h4 : goSliceTo (pre ++ n :: name) 4 =
        Except.ok ((pre ++ n :: name).take 4) := by
      unfold goSliceTo; rw [if_pos (by omega)]
    have hg : (pre ++ n :: name).getD 8 0 = n := by
      rw [List.getD, List.get?_append_right (by omega), hlen]
      simp
    simp only [FC.afterFrame, FC.handleFrame, h4]
    rw [if_pos (by omega), hg, if_neg (by omega)]
    simp [ht]

/-- C4 witness. -/
theorem c4_board_info_target_name_witness :
    ((FC.afterFrame ⟨false, [], 0, 0, 0, [], [], 0⟩
        (MSPFrame.boardInfo [65, 66, 67, 68])).map FC.targetName = some [] ∧
     (FC.afterFrame ⟨false, [], 0, 0, 0, [], [], 0⟩
        (MSPFrame.boardInfo
          ([1, 2, 3, 4, 5, 6, 7, 8] ++ [88, 89, 90].length :: [88, 89, 90]))).map
        FC.targetName = some [88, 89, 90] ∧
     (FC.afterFrame ⟨false, [], 0, 0, 0, [], [], 0⟩
        (MSPFrame.boardInfo ([1, 2, 3, 4, 5, 6, 7, 8] ++ 3 :: [88, 89]))).map
        FC.targetName = some []) :=
  ⟨(c4_board_info_target_name _).1 [65, 66, 67, 68] (by decide) (by decide),
   (c4_board_info_target_name _).2.1 [1, 2, 3, 4, 5, 6, 7, 8] [88, 89, 90] (by decide),
   (c4_board_info_target_name _).2.2 [1, 2, 3, 4, 5, 6, 7, 8] [88, 89] 3 (by decide)
     (by decide) (by decide)⟩

/-- C5: with policy allowing enablement, on a serial-config sequence
whose entries carry the protocol-control bit only at one position and
the debug-trace bit nowhere, the handler leaves the state unchanged,
announces the patched port, and issues exactly one set-serial-config
command carrying the sequence with the debug-trace bit set on that one
entry (its identifier and all other entries untouched), followed by
exactly one persist command. -/
theorem c5_single_msp_port_patched (f : FC) (pre : List MSPSerialConfig)
    (c : MSPSerialConfig) (post : List MSPSerialConfig)
    (hse : f.shouldEnableDebugTrace = true)
    (hpre : ∀ e ∈ pre, e.functionMask &&& serialFunctionMSP = 0)
    (hc : c.functionMask &&& serialFunctionMSP ≠ 0)
    (_hpost : ∀ e ∈ post, e.functionMask &&& serialFunctionMSP = 0)
    (hdt : ∀ e ∈ pre ++ c :: post, e.functionMask &&& serialFunctionDebugTrace = 0) :
    f.handleFrame (MSPFrame.cfSerialConfig (pre ++ c :: post)) =
      Except.ok (f, [FCOutput.enablingSerialLine c.identifier],
        [FCCmd.setCFSerialConfig
          (pre ++
            { c with functionMask := c.functionMask ||| serialFunctionDebugTrace } :: post),
         FCCmd.eepromWrite]) := by
  have hany : ((pre ++ c :: post).any (fun e =>
      e.functionMask &&& (serialFunctionMSP ||| serialFunctionDebugTrace) ==
        serialFunctionMSP ||| serialFunctionDebugTrace)) = false := by
    refine List.any_eq_false.mpr (fun e he => ?_)
    simpa using not_both_of_no_dt e.functionMask (hdt e he)
  simp [FC.handleFrame, hse, hany, patchFirstMSP_append pre c post hpre hc,
    firstMSP_append pre c post hpre hc]

/-- C5 witness. -/
theorem c5_single_msp_port_patched_witness :
    FC.handleFrame
        { enableDebugTrace := true, variant := [73, 78, 65, 86], versionMajor := 1,
          versionMinor := 9, versionPatch := 0, boardID := [], targetName := [],
          features := 0 }
        (MSPFrame.cfSerialConfig
          ([{ identifier := 0, functionMask := 0 }] ++
            { identifier := 1, functionMask := 1 } ::
              [{ identifier := 2, functionMask := 2 }])) =
      Except.ok
        ({ enableDebugTrace := true, variant := [73, 78, 65, 86], versionMajor := 1,
           versionMinor := 9, versionPatch := 0, boardID := [], targetName := [],
           features := 0 },
         [FCOutput.enablingSerialLine 1],
         [FCCmd.setCFSerialConfig
            ([{ identifier := 0, functionMask := 0 }] ++
              { identifier := 1, functionMask := 32769 } ::
                [{ identifier := 2, functionMask := 2 }]),
          FCCmd.eepromWrite]) :=
  c5_single_msp_port_patched _ _ { identifier := 1, functionMask := 1 } _
    (by decide) (by decide) (by decide) (by decide) (by decide)

/-- C6, counterexample: a state whose variant and board identifier are
populated and whose version triple is (0, 1, 0), which is not the zero
triple, prints no identity summary, because the guard only consults the
major component. -/
theorem c6_counterexample :
    FC.printInfo ⟨false, [73], 0, 1, 0, [65, 66, 67, 68], [], 0⟩ = [] ∧
    ([73] : List Nat) ≠ [] ∧
    ((0, 1, 0) : Nat × Nat × Nat) ≠ (0, 0, 0) ∧
    ([65, 66, 67, 68] : List Nat) ≠ [] := by
  decide

/-- C6 (amended): the identity summary is printed exactly when the
variant is non-empty, the major version component is non-zero, and the
board identifier is non-empty (the minor and patch components are not
consulted); and re-handling any identity-affecting frame (variant,
version, board-info) from the state it produced leaves that state
unchanged, so repeated printing never corrupts the accumulated
identity. -/
theorem c6_summary_guard_and_idempotence (f : FC) :
    (f.printInfo ≠ [] ↔ (f.variant ≠ [] ∧ f.versionMajor ≠ 0 ∧ f.boardID ≠ [])) ∧
    (∀ (p : List Nat) (st : FC), f.afterFrame (MSPFrame.fcVariant p) = some st →
      st.afterFrame (MSPFrame.fcVariant p) = some st) ∧
    (∀ (p : List Nat) (st : FC), f.afterFrame (MSPFrame.fcVersion p) = some st →
      st.afterFrame (MSPFrame.fcVersion p) = some st) ∧
    (∀ (p : List Nat) (st : FC), f.afterFrame (MSPFrame.boardInfo p) = some st →
      st.afterFrame (MSPFrame.boardInfo p) = some st) := by
  refine ⟨?_, ?_, ?_, ?_⟩
  · by_cases h : f.variant ≠ [] ∧ f.versionMajor ≠ 0 ∧ f.boardID ≠ [] <;>
      simp [FC.printInfo, h]
  · intro p st h
    simp [FC.afterFrame, FC.handleFrame] at h ⊢
    rw [← h]
  · intro p st h
    cases hb0 : frByte p 0 with
    | error e => simp [FC.afterFrame, FC.handleFrame, hb0] at h
    | ok b0 =>
      cases hb1 : frByte p 1 with
      | error e => simp [FC.afterFrame, FC.handleFrame, hb0, hb1] at h
      | ok b1 =>
        cases hb2 : frByte p 2 with
        | error e => simp [FC.afterFrame, FC.handleFrame, hb0, hb1, hb2] at h
        | ok b2 =>
          simp [FC.afterFrame, FC.handleFrame, hb0, hb1, hb2] at h ⊢
          rw [← h]
  · intro p st h
    cases hb : goSliceTo p 4 with
    | error e => simp [FC.afterFrame, FC.handleFrame, hb] at h
    | ok bid =>
      by_cases h9 : 9 ≤ p.length
      · by_cases hn : 8 + (p[8]?.getD 0) < p.length
        · simp [FC.afterFrame, FC.handleFrame, hb, h9, hn] at h ⊢
          rw [← h]
        · simp [FC.afterFrame, FC.handleFrame, hb, h9, hn] at h ⊢
          rw [← h]
      · simp [FC.afterFrame, FC.handleFrame, hb, h9] at h ⊢
        rw [← h]

/-- C6 witness. -/
theorem c6_summary_guard_and_idempotence_witness :
    FC.afterFrame ⟨false, [73], 0, 0, 0, [], [], 0⟩ (MSPFrame.fcVariant [73]) =
      some ⟨false, [73], 0, 0, 0, [], [], 0⟩ :=
  (c6_summary_guard_and_idempotence ⟨false, [73], 0, 0, 0, [], [], 0⟩).2.1 [73]
    ⟨false, [73], 0, 0, 0, [], [], 0⟩ (by decide)

/-- C10: the board-info handler slices the first four payload bytes and
the build-info handler slices bytes 0-11 and 11-19 without bounds
checks, so a board-info payload shorter than 4 bytes or a build-info
payload shorter than 19 bytes makes the handler panic (embedded as the
slice-bounds error) instead of continuing; only the target-name portion
of board-info is length-guarded, so any board-info payload of at least
4 bytes is handled without panicking. -/
theorem c10_unchecked_indexing (f : FC) (p q : List Nat) :
    (p.length < 4 →
      f.handleFrame (MSPFrame.boardInfo p) =
        Except.error "slice bounds out of range") ∧
    (4 ≤ p.length → (f.afterFrame (MSPFrame.boardInfo p)).isSome = true) ∧
    (q.length < 19 →
      f.handleFrame (MSPFrame.buildInfo q) =
        Except.error "slice bounds out of range") := by
  refine ⟨?_, ?_, ?_⟩
  · intro hp
    have h4 : goSliceTo p 4 = Except.error "slice bounds out of range" := by
      unfold goSliceTo; rw [if_neg (by omega)]
    simp [FC.handleFrame, h4]
  · intro hp
    have h4 : goSliceTo p 4 = Except.ok (p.take 4) := by
      unfold goSliceTo; rw [if_pos (by omega)]
    simp [FC.afterFrame, FC.handleFrame, h4]
  · intro hq
    by_cases h11 : 11 ≤ q.length
    · have e1 : goSliceRange q 0 11 = Except.ok ((q.drop 0).take 11) := by
        unfold goSliceRange; rw [if_pos ⟨by omega, by omega⟩]
      have e2 : goSliceRange q 11 19 = Except.error "slice bounds out of range" := by
        unfold goSliceRange; rw [if_neg (by omega)]
      simp [FC.handleFrame, e1, e2]
    · have e1 : goSliceRange q 0 11 = Except.error "slice bounds out of range" := by
        unfold goSliceRange; rw [if_neg (by omega)]
      simp [FC.handleFrame, e1]

/-- C10 witness. -/
theorem c10_unchecked_indexing_witness :
    (FC.handleFrame ⟨false, [], 0, 0, 0, [], [], 0⟩ (MSPFrame.boardInfo [1, 2, 3]) =
      Except.error "slice bounds out of range") ∧
    ((FC.afterFrame ⟨false, [], 0, 0, 0, [], [], 0⟩
        (MSPFrame.boardInfo [1, 2, 3, 4])).isSome = true) ∧
    (FC.handleFrame ⟨false, [], 0, 0, 0, [], [], 0⟩
        (MSPFrame.buildInfo (List.range 18)) =
      Except.error "slice bounds out of range") :=
  ⟨(c10_unchecked_indexing _ [1, 2, 3] []).1 (by decide),
   (c10_unchecked_indexing _ [1, 2, 3, 4] []).2.1 (by decide),
   (c10_unchecked_indexing _ [] (List.range 18)).2.2 (by decide)⟩

/-- C7: on the documented example descriptor line the extraction yields
alt 0, serial 3276365D3336 and offset 0x08000000; and whenever any of
the three extractions from the selected internal-flash line is empty,
the flash step fails with the error message naming the unparsed line
(in its Go quoted form). -/
theorem c7_descriptor_extraction :
    dfuFlashParams [dfuExampleLine] =
      Except.ok ("0", "3276365D3336", "0x08000000") ∧
    (∀ devices : List String,
      String.mk (findAlt (firstFlashDevice devices).data) = "" ∨
        String.mk (findSerial (firstFlashDevice devices).data) = "" ∨
        String.mk (findOffset (firstFlashDevice devices).data) = "" →
      dfuFlashParams devices =
        Except.error
          ("could not determine flash parameters from " ++
            goQuote (firstFlashDevice devices))) := by
  constructor
  · rfl
  · intro devices h
    simp only [dfuFlashParams]
    rw [if_pos h]

/-- C7 witness. -/
theorem c7_descriptor_extraction_witness :
    dfuFlashParams [] =
      Except.error ("could not determine flash parameters from " ++ goQuote "") :=
  c7_descriptor_extraction.2 [] (Or.inl rfl)

/-- C8: on the example directory listing with target TARGET1 the newest
matching .bin file barTARGET1.bin is selected; in general a located
binary is a listed candidate (extension .bin, stripped name ending in
the target) whose modification time is maximal among candidates; and
when no listed file is a candidate, location fails with the error
naming the target. -/
theorem c8_locate_binary :
    locateBinary
        [{ name := "fooTARGET1.bin", modTime := 1 },
         { name := "barTARGET1.bin", modTime := 2 },
         { name := "TARGET1.hex", modTime := 3 }] "TARGET1" =
      Except.ok "barTARGET1.bin" ∧
    (∀ (files : List FileInfo) (target bname : String),
      locateBinary files target = Except.ok bname →
      ∃ fi, fi ∈ files ∧ fi.name = bname ∧ isCandidate fi.name target = true ∧
        ∀ g ∈ files, isCandidate g.name target = true → g.modTime ≤ fi.modTime) ∧
    (∀ (files : List FileInfo) (target : String),
      (∀ fi ∈ files, isCandidate fi.name target = false) →
      locateBinary files target =
        Except.error ("could not find binary for target " ++ target)) := by
  refine ⟨rfl, ?_, ?_⟩
  · intro files target bname h
    unfold locateBinary at h
    cases hsel : selectBinary files target with
    | none => rw [hsel] at h; cases h
    | some b =>
      rw [hsel] at h
      cases h
      obtain ⟨h1, h2, _⟩ := foldl_selStep_spec target files none b hsel
      rcases h1 with h1 | ⟨hmem, hcand⟩
      · cases h1
      · exact ⟨b, hmem, rfl, hcand, h2⟩
  · intro files target h
    unfold locateBinary selectBinary
    rw [foldl_selStep_none target files h]

/-- C8 witness. -/
theorem c8_locate_binary_witness :
    (∃ fi, fi ∈ ([{ name := "aX.bin", modTime := 5 }] : List FileInfo) ∧
      fi.name = "aX.bin" ∧ isCandidate fi.name "X" = true ∧
      ∀ g ∈ ([{ name := "aX.bin", modTime := 5 }] : List FileInfo),
        isCandidate g.name "X" = true → g.modTime ≤ fi.modTime) ∧
    locateBinary [{ name := "b.txt", modTime := 1 }] "X" =
      Except.error ("could not find binary for target " ++ "X") :=
  ⟨c8_locate_binary.2.1 [{ name := "aX.bin", modTime := 5 }] "X" "aX.bin" rfl,
   c8_locate_binary.2.2 [{ name := "b.txt", modTime := 1 }] "X" (by decide)⟩

/-- C9, counterexample: a failed invocation of the device lister (the
process did not exit successfully and wrote nothing) is not returned as
an error: dfuList discards the run result and returns an empty device
list with a nil error, and a wait whose every poll is such a failure
ends with the timeout error rather than the invocation error. -/
theorem c9_counterexample :
    FC.dfuList { exitOk := false, output := "" } = Except.ok [] ∧
    FC.dfuWait [{ exitOk := false, output := "" }] =
      Except.error "timed out while waiting for board in DFU mode" :=
  ⟨rfl, rfl⟩

/-- C9 (amended): dfuList never surfaces a tool-invocation failure: for
every run it returns, with a nil error, the device lines parsed from
whatever output was captured; consequently, when no poll of the wait
loop yields a line containing the internal-flash marker (in particular
when every invocation fails and yields no lines), the wait loop only
fails by reaching its deadline with the timeout error. -/
theorem c9_lister_errors_swallowed (runs : List ToolRun) :
    (∀ r : ToolRun, FC.dfuList r = Except.ok (dfuListLines r.output)) ∧
    ((∀ r ∈ runs, ∀ d ∈ dfuListLines r.output, strContains d internalFlashMarker = false) →
      FC.dfuWait runs =
        Except.error "timed out while waiting for board in DFU mode") := by
  refine ⟨fun r => rfl, ?_⟩
  intro h
  induction runs with
  | nil => rfl
  | cons run rest ih =>
    have hany : ((dfuListLines run.output).any
        (fun d => strContains d internalFlashMarker)) = false := by
      refine List.any_eq_false.mpr (fun d hd => ?_)
      simp [h run (List.mem_cons_self _ _) d hd]
    simp only [FC.dfuWait, FC.dfuList, hany]
    simp only [Bool.false_eq_true, if_false]
    exact ih (fun r hr => h r (List.mem_cons_of_mem _ hr))

/-- C9 witness. -/
theorem c9_lister_errors_swallowed_witness :
    FC.dfuWait [{ exitOk := false, output := "" }, { exitOk := false, output := "xyz" }] =
      Except.error "timed out while waiting for board in DFU mode" :=
  (c9_lister_errors_swallowed
    [{ exitOk := false, output := "" }, { exitOk := false, output := "xyz" }]).2
    (by decide)

/-- C3 witness. -/
theorem c3_feature_bit_behavior_witness :
    FC.handleFrame
        { enableDebugTrace := true, variant := [73, 78, 65, 86], versionMajor := 2,
          versionMinor := 0, versionPatch := 0, boardID := [], targetName := [],
          features := 0 }
        (MSPFrame.feature mspFCFeatureDebugTrace) =
      Except.ok
        ({ enableDebugTrace := true, variant := [73, 78, 65, 86], versionMajor := 2,
           versionMinor := 0, versionPatch := 0, boardID := [], targetName := [],
           features := mspFCFeatureDebugTrace }, [], []) :=
  (c3_feature_bit_behavior _ mspFCFeatureDebugTrace).1 (by decide)
